import Mathlib

/-!
Shallow embedding of `src/bloggg.py` (a small markdown static-site generator).

Strings of the Python program are modelled as `List Char`; `pathlib.Path`
values are modelled as the list of their components (`List String`), with
`Path('.')` modelled as `[]` so that `Path.parent` is `List.dropLast`.
The filesystem is modelled as an association list from paths to contents,
and writes are modelled by the value a function returns.  The external
libraries `yaml` (`yaml.safe_load`) and `mistletoe` (`mistletoe.markdown`)
are modelled as function parameters, since their behaviour is not part of
this repository.
-/

/-- `listStartsWith pat s` is true when `s` begins with `pat`
(models Python `str.startswith` and underlies substring search). -/
def listStartsWith {α : Type} [DecidableEq α] : List α → List α → Bool
  | [], _ => true
  | _ :: _, [] => false
  | p :: ps, c :: cs => if p = c then listStartsWith ps cs else false

/-- `occursAtB s pat i` : the pattern `pat` occurs in `s` at index `i`. -/
def occursAtB (s pat : List Char) (i : Nat) : Bool :=
  listStartsWith pat (s.drop i)

/-- Index of the first occurrence of `pat` in `s`, if any
(models Python `str.find` restricted to found/not-found as `Option`). -/
def findFrom (pat : List Char) : List Char → Option Nat
  | [] => if listStartsWith pat [] then some 0 else none
  | c :: t =>
    if listStartsWith pat (c :: t) then some 0
    else (findFrom pat t).map (fun k => k + 1)

/-- Index of the first occurrence of `pat` in `s` at or after index `start`
(models Python `s.find(pat, start)`). -/
def findSub (pat s : List Char) (start : Nat) : Option Nat :=
  (findFrom pat (s.drop start)).map (fun k => k + start)

/-- `repeatChars l n` is `l` concatenated `n` times (models Python `l * n`). -/
def repeatChars (l : List Char) : Nat → List Char
  | 0 => []
  | n + 1 => l ++ repeatChars l n

/-- Models Python `s.replace(pat, rep)`: replace every non-overlapping
occurrence of `pat`, scanning left to right.  Written with structural
recursion on a fuel bounded by the string length so it computes by
`decide`/`rfl`; the fuel never runs out because each step consumes at
least one character. -/
def replaceAllGo : Nat → List Char → List Char → List Char → List Char
  | 0, s, _, _ => s
  | f + 1, s, pat, rep =>
    match s with
    | [] => []
    | c :: t =>
      if pat ≠ [] ∧ listStartsWith pat (c :: t) then
        rep ++ replaceAllGo f ((c :: t).drop pat.length) pat rep
      else
        c :: replaceAllGo f t pat rep

/-- `s.replace(pat, rep)` (with the fuel set to the string length). -/
def replaceAll (s pat rep : List Char) : List Char :=
  replaceAllGo s.length s pat rep

/-- Number of non-overlapping occurrences of `pat` in `s`, scanning left
to right (used to state counterexamples); fuelled like `replaceAllGo`. -/
def countOccurGo : Nat → List Char → List Char → Nat
  | 0, _, _ => 0
  | f + 1, s, pat =>
    match s with
    | [] => 0
    | c :: t =>
      if pat ≠ [] ∧ listStartsWith pat (c :: t) then
        1 + countOccurGo f ((c :: t).drop pat.length) pat
      else
        countOccurGo f t pat

/-- Non-overlapping occurrence count of `pat` in `s`. -/
def countOccur (s pat : List Char) : Nat :=
  countOccurGo s.length s pat

/-- The frontmatter delimiter `---`. -/
def dashes : List Char := ("---").toList

/-- Embedding of `parse_frontmatter` (bloggg.py lines 14-20).  `yamlLoad`
models `yaml.safe_load`; a `none` result models Python `None` (either no
frontmatter block found, or `yaml.safe_load` returning `None`). -/
def parse_frontmatter {α : Type} (yamlLoad : List Char → Option α)
    (markdown : List Char) : Option α × List Char :=
  match findSub dashes markdown 0 with
  | none => (none, markdown)
  | some start =>
    match findSub dashes markdown (start + 3) with
    | none => (none, markdown)
    | some stop =>
      (yamlLoad ((markdown.drop (start + 3)).take (stop - (start + 3))),
       markdown.drop (stop + 3))

/-- Last component of a path (`pathlib.Path.name`; `''` for `Path('.')`). -/
def pathName (p : List String) : String :=
  match p.reverse with
  | [] => ""
  | x :: _ => x

/-- Index of the last `.` in a filename, if any. -/
def lastDotIdx (cs : List Char) : Option Nat :=
  match cs.reverse.findIdx? (fun c => c = '.') with
  | some j => some (cs.length - 1 - j)
  | none => none

/-- Filename with its extension removed (`PurePath.with_suffix('')` on the
name): the extension starts at the last dot, provided that dot is not the
first character; a name without such a dot is unchanged. -/
def nameStem (n : String) : String :=
  match lastDotIdx n.toList with
  | some i => if 0 < i then String.mk (n.toList.take i) else n
  | none => n

/-- Filename extension (`pathlib.Path.suffix`), including the dot;
`""` when there is none. -/
def nameSuffix (n : String) : String :=
  match lastDotIdx n.toList with
  | some i => if 0 < i then String.mk (n.toList.drop i) else ""
  | none => ""

/-- `pathlib.Path.suffix` of a path: the extension of its last component. -/
def pathSuffix (p : List String) : String :=
  match p.reverse with
  | [] => ""
  | x :: _ => nameSuffix x

/-- `path.with_suffix('')`: strip the extension of the last component. -/
def pyWithSuffixEmpty (p : List String) : List String :=
  match p.reverse with
  | [] => []
  | last :: ri => (nameStem last :: ri).reverse

/-- `path.with_suffix('.html')`: replace the extension of the last component. -/
def withSuffixHtml (p : List String) : List String :=
  match p.reverse with
  | [] => []
  | last :: ri => ((nameStem last ++ (".html")) :: ri).reverse

/-- `file.relative_to(root)` : the remaining components when `root` is a
prefix of `file`, `none` when Python would raise `ValueError`. -/
def relativeTo (file root : List String) : Option (List String) :=
  if listStartsWith root file then some (file.drop root.length) else none

/-- Python `str.strip()`: remove leading and trailing whitespace. -/
def pyStrip (s : String) : String :=
  String.mk (((s.toList.dropWhile Char.isWhitespace).reverse.dropWhile
    Char.isWhitespace).reverse)

/-- The directory adjustment at the top of `gen_breadcrumbs_html`
(bloggg.py lines 51-55): strip the extension, and replace a final `index`
component with its parent directory. -/
def adjustedDir (file_dir : List String) : List String :=
  let fd := pyWithSuffixEmpty file_dir
  if pathName fd = ("index") then fd.dropLast else fd

/-- The upward parent-walk of `gen_breadcrumbs_html` (bloggg.py lines
58-61): `while file_dir != input_root: append file_dir; file_dir =
file_dir.parent`.  The walk is given as a fuelled iteration because the
Python loop need not terminate; `none` means the fuel was exhausted before
`input_root` was reached.  `Path.parent` is `List.dropLast` (stationary at
`[]`, which models `Path('.')`). -/
def crumbLoop : Nat → List String → List String → Option (List (List String))
  | 0, p, root => if p = root then some [] else none
  | f + 1, p, root =>
    if p = root then some []
    else (crumbLoop f p.dropLast root).map (fun bs => p :: bs)

/-- `"/".join(['..'] * n)` from bloggg.py line 73. -/
def joinDots : Nat → List Char
  | 0 => []
  | 1 => ("..").toList
  | n + 2 => ("../").toList ++ joinDots (n + 1)

/-- The crumb-rendering loop of `gen_breadcrumbs_html` (bloggg.py lines
69-73): `n` is the total number of breadcrumbs, `i` the enumeration index,
and the list argument is the reversed breadcrumb list. -/
def renderCrumbs (n : Nat) : Nat → List (List String) → List Char
  | _, [] => []
  | i, c :: rest =>
    (if i = 0 then [] else (" / ").toList) ++
    ("<a href=\"").toList ++ joinDots (n - 1 - i) ++ ("\">").toList ++
    (if i = 0 then ("root").toList else (pathName c).toList) ++
    ("</a>").toList ++
    renderCrumbs n (i + 1) rest

/-- Embedding of `gen_breadcrumbs_html` (bloggg.py lines 47-75).  Returns
`none` when the Python while-loop would not terminate (the walk never
reaches `input_root`); otherwise `some` of the produced HTML. -/
def gen_breadcrumbs_html (file_dir input_root : List String) :
    Option (List Char) :=
  let fd := adjustedDir file_dir
  match crumbLoop fd.length fd input_root with
  | none => none
  | some collected =>
    let breadcrumbs := collected ++ [input_root]
    if breadcrumbs.length = 1 then some []
    else
      some (("<nav class=\"breadcrumbs\">").toList ++
        renderCrumbs breadcrumbs.length 0 breadcrumbs.reverse ++
        ("</nav>").toList)

/-- `dropPrefixQ pat s` : the remainder of `s` after `pat`, when `s`
starts with `pat`. -/
def dropPrefixQ : List Char → List Char → Option (List Char)
  | [], s => some s
  | _ :: _, [] => none
  | p :: ps, c :: cs => if p = c then dropPrefixQ ps cs else none

/-- One match of the regex `(href|src)="([^"]+)"` : the half-open index
range of capture group 2 (the attribute value) and its text. -/
structure RefMatch where
  valStart : Nat
  valStop : Nat
  val : List Char
  deriving DecidableEq, Repr

/-- Attempt to match `="([^"]+)"` directly after an attribute name:
a maximal non-empty run of non-quote characters followed by `"`. -/
def matchValue (rest : List Char) : Option (List Char) :=
  let v := rest.takeWhile (fun c => c ≠ '"')
  if v.isEmpty then none
  else
    match rest.drop v.length with
    | '"' :: _ => some v
    | _ => none

/-- Attempt to match the regex `(href|src)="([^"]+)"` at the head of `s`;
returns the attribute-name length and the value. -/
def tryMatchHere (s : List Char) : Option (Nat × List Char) :=
  match dropPrefixQ (("href=\"").toList) s with
  | some rest => (matchValue rest).map (fun v => (4, v))
  | none =>
    match dropPrefixQ (("src=\"").toList) s with
    | some rest => (matchValue rest).map (fun v => (3, v))
    | none => none

/-- All matches of `re.finditer` with the regex `(href|src)="([^"]+)"` : leftmost,
non-overlapping, with capture-group-2 index ranges relative to the start of
the original string (`i` is the index of the head of `s` in it).  Written
with structural recursion on a fuel bounded by the string length so it
computes by `decide`/`rfl`; the fuel never runs out because each step
consumes at least one character. -/
def findItersGo : Nat → List Char → Nat → List RefMatch
  | 0, _, _ => []
  | f + 1, s, i =>
    match s with
    | [] => []
    | c :: rest =>
      match tryMatchHere (c :: rest) with
      | some (alen, v) =>
        { valStart := i + alen + 2, valStop := i + alen + 2 + v.length,
          val := v } ::
          findItersGo f ((c :: rest).drop (alen + 2 + v.length + 1))
            (i + (alen + 2 + v.length + 1))
      | none => findItersGo f rest (i + 1)

/-- The full match list of `re.finditer` over `s` (fuel set to length). -/
def findIters (s : List Char) (i : Nat) : List RefMatch :=
  findItersGo s.length s i

/-- `len(markdown_file.parts[:-2])` from bloggg.py line 37: the number of
`'../'` segments prefixed to each rewritten asset reference. -/
def markdownToRootCount (markdown_file : List String) : Nat :=
  (markdown_file.dropLast.dropLast).length

/-- `markdown_to_root` from bloggg.py line 37:
`'../' * len(markdown_file.parts[:-2]) + '_templates'`. -/
def markdownToRoot (markdown_file : List String) : List Char :=
  repeatChars (("../").toList) (markdownToRootCount markdown_file) ++
    ("_templates").toList

/-- Embedding of `patch_referenced_files` (bloggg.py lines 31-44).  The
match list is computed once from the original string (as `re.finditer`
does), while each replacement splices the *current* string at the match's
original index range — exactly as the Python assigns back to `final_html`
inside the loop.  `template_file` is unused, as in the source. -/
def patch_referenced_files (final_html : List Char)
    (template_file markdown_file : List String) : List Char :=
  (findIters final_html 0).foldl
    (fun cur m =>
      if ¬ listStartsWith (("http").toList) m.val ∧
         ¬ listStartsWith (("#").toList) m.val then
        let asset_path := markdownToRoot markdown_file ++ ("/").toList ++ m.val
        cur.take m.valStart ++ asset_path ++ cur.drop m.valStop
      else cur)
    final_html

/-- The ways `process_markdown` aborts: `attributeError` models Python's
`AttributeError` from `None.get` when `parse_frontmatter` returned no
mapping; `assertionError` models the failed
`assert template_file.exists()` (carrying the template path that the
diagnostic message names); `valueError` models `Path.relative_to` on a
file outside the input root; `fileNotFound` models `open` on a missing
file. -/
inductive PyErr where
  | attributeError : PyErr
  | assertionError : List String → PyErr
  | valueError : PyErr
  | fileNotFound : PyErr
  deriving DecidableEq, Repr

/-- A filesystem: an association list from paths to file contents. -/
def FS : Type := List (List String × List Char)

/-- Read a file (`open(p).read()`), `none` when absent. -/
def fsRead (fs : FS) (p : List String) : Option (List Char) :=
  match fs.find? (fun e => e.1 == p) with
  | some e => some e.2
  | none => none

/-- A parsed frontmatter mapping: string keys to string values
(`yaml.safe_load` results are abstracted to flat string scalars). -/
def Fm : Type := List (String × String)

/-- `fm.get(k, d)` on a Python dict. -/
def fmGet (fm : Fm) (k d : String) : String :=
  match fm.find? (fun e => e.1 == k) with
  | some e => e.2
  | none => d

/-- `k in fm` on a Python dict. -/
def fmHas (fm : Fm) (k : String) : Bool :=
  (fm.find? (fun e => e.1 == k)).isSome

/-- `frontmatter.get('template', 'default').strip()` (bloggg.py line 88). -/
def templateNameOf (fm : Fm) : String :=
  pyStrip (fmGet fm ("template") ("default"))

/-- `input_root / '_templates' / f'{template_name}.html'`
(bloggg.py line 89). -/
def templatePathOf (input_root : List String) (fm : Fm) : List String :=
  input_root ++ [("_templates" : String), templateNameOf fm ++ (".html")]

/-- Embedding of `process_markdown` (bloggg.py lines 78-112).  `yamlLoad`
models `yaml.safe_load`, `mdRender` models `mistletoe.markdown`; the write
of line 111-112 is modelled by the returned `(output path, contents)` pair,
so an `Except.error` result means no output file is produced.  The outer
`Option` is `none` when the breadcrumb while-loop would not terminate. -/
def process_markdown (yamlLoad : List Char → Option Fm)
    (mdRender : List Char → List Char) (fs : FS)
    (file input_root output_root : List String) :
    Option (Except PyErr (List String × List Char)) :=
  match fsRead fs file with
  | none => some (Except.error PyErr.fileNotFound)
  | some raw =>
    match relativeTo file input_root with
    | none => some (Except.error PyErr.valueError)
    | some rel =>
      match parse_frontmatter yamlLoad raw with
      | (none, _) => some (Except.error PyErr.attributeError)
      | (some fm, body) =>
        let template_file := templatePathOf input_root fm
        match fsRead fs template_file with
        | none => some (Except.error (PyErr.assertionError template_file))
        | some tmpl0 =>
          let tmpl1 := patch_referenced_files tmpl0 template_file file
          let content_html := mdRender body
          let tmpl2 := replaceAll tmpl1 (("$$DOC_TITLE$$").toList)
            ((fmGet fm ("title") ("")).toList)
          let tmpl3 :=
            if fmHas fm ("date") then
              replaceAll tmpl2 (("$$DOC_DATE$$").toList)
                ((("Written ") ++ fmGet fm ("date") ("")).toList)
            else
              replaceAll tmpl2 (("$$DOC_DATE$$").toList) []
          let tmpl4 := replaceAll tmpl3 (("$$DOC_CONTENT$$").toList)
            content_html
          match gen_breadcrumbs_html file input_root with
          | none => none
          | some bc =>
            let tmpl5 := replaceAll tmpl4 (("$$BREADCRUMBS$$").toList) bc
            some (Except.ok (output_root ++ withSuffixHtml rel, tmpl5))

/-- `DIRECT_COPY_EXTENSIONS` (bloggg.py line 10). -/
def DIRECT_COPY_EXTENSIONS : List String :=
  [(".html"), (".css"), (".js"), (".png"), (".jpg"), (".svg")]

/-- Embedding of `walk_dir` (bloggg.py lines 23-27): `os.walk` is
abstracted to the given enumeration `files` of all files under the
directory; the function keeps those whose suffix is in `extensions`. -/
def walk_dir (files : List (List String)) (extensions : List String) :
    List (List String) :=
  files.filter (fun f => extensions.contains (pathSuffix f))

/-- The direct-copy pass of `process_all` (bloggg.py lines 116-124): the
files copied verbatim — note this pass, and only this pass, skips files
with `_templates` among their components. -/
def process_all_copied (files : List (List String)) : List (List String) :=
  (walk_dir files DIRECT_COPY_EXTENSIONS).filter
    (fun f => ! f.contains ("_templates"))

/-- The markdown pass of `process_all` (bloggg.py lines 135-137): the list
of files on which `process_markdown` is invoked, one call per listed file.
The source applies no `_templates` exclusion here. -/
def process_all_markdown (files : List (List String)) : List (List String) :=
  walk_dir files [(".md")]

/-- Modelled from the spec's words for claim C4 (spec section 4.4): the
number of parent-traversal segments the spec asserts — "the document's
path depth below the input root minus one". -/
def specTraversalCount (file input_root : List String) : Nat :=
  (file.drop input_root.length).length - 1

theorem lsw_iff {α : Type} [DecidableEq α] (p s : List α) :
    listStartsWith p s = true ↔ ∃ r, s = p ++ r := by
  induction p generalizing s with
  | nil => simp [listStartsWith]
  | cons a ps ih =>
    cases s with
    | nil => simp [listStartsWith]
    | cons c cs =>
      simp only [listStartsWith]
      by_cases hac : a = c
      · subst hac
        rw [if_pos rfl, ih]
        constructor
        · rintro ⟨r, hr⟩
          exact ⟨r, by rw [hr]; rfl⟩
        · rintro ⟨r, hr⟩
          rw [List.cons_append] at hr
          injection hr with h1 h2
          exact ⟨r, h2⟩
      · rw [if_neg hac]
        simp only [Bool.false_eq_true, false_iff]
        rintro ⟨r, hr⟩
        rw [List.cons_append] at hr
        injection hr with h1 h2
        exact hac h1.symm

theorem lsw_append {α : Type} [DecidableEq α] (p r : List α) :
    listStartsWith p (p ++ r) = true :=
  (lsw_iff p (p ++ r)).mpr ⟨r, rfl⟩

theorem lsw_length {α : Type} [DecidableEq α] {p s : List α}
    (h : listStartsWith p s = true) : p.length ≤ s.length := by
  rcases (lsw_iff p s).mp h with ⟨r, hr⟩
  subst hr
  simp

theorem occursAtB_succ (c : Char) (t pat : List Char) (j : Nat) :
    occursAtB (c :: t) pat (j + 1) = occursAtB t pat j := by
  simp [occursAtB]

theorem findFrom_sound (pat : List Char) :
    ∀ (s : List Char) (i : Nat), findFrom pat s = some i →
      occursAtB s pat i = true := by
  intro s
  induction s with
  | nil =>
    intro i h
    simp only [findFrom] at h
    by_cases hp : listStartsWith pat ([] : List Char) = true
    · rw [if_pos hp] at h
      injection h with h0
      subst h0
      simpa [occursAtB] using hp
    · rw [if_neg hp] at h
      exact absurd h (by simp)
  | cons c t ih =>
    intro i h
    simp only [findFrom] at h
    by_cases hp : listStartsWith pat (c :: t) = true
    · rw [if_pos hp] at h
      injection h with h0
      subst h0
      simpa [occursAtB] using hp
    · rw [if_neg hp] at h
      rcases Option.map_eq_some'.mp h with ⟨k, hk, hik⟩
      subst hik
      rw [occursAtB_succ]
      exact ih k hk

theorem findFrom_min (pat : List Char) :
    ∀ (s : List Char) (i : Nat), findFrom pat s = some i →
      ∀ j, j < i → occursAtB s pat j = false := by
  intro s
  induction s with
  | nil =>
    intro i h j hj
    simp only [findFrom] at h
    by_cases hp : listStartsWith pat ([] : List Char) = true
    · rw [if_pos hp] at h
      injection h with h0
      omega
    · rw [if_neg hp] at h
      exact absurd h (by simp)
  | cons c t ih =>
    intro i h j hj
    simp only [findFrom] at h
    by_cases hp : listStartsWith pat (c :: t) = true
    · rw [if_pos hp] at h
      injection h with h0
      omega
    · rw [if_neg hp] at h
      rcases Option.map_eq_some'.mp h with ⟨k, hk, hik⟩
      subst hik
      cases j with
      | zero => simpa [occursAtB] using hp
      | succ j0 =>
        rw [occursAtB_succ]
        exact ih k hk j0 (by omega)

theorem findFrom_complete (pat : List Char) :
    ∀ (s : List Char) (i : Nat), occursAtB s pat i = true →
      ∃ k, k ≤ i ∧ findFrom pat s = some k := by
  intro s
  induction s with
  | nil =>
    intro i h
    refine ⟨0, Nat.zero_le i, ?_⟩
    simp only [occursAtB, List.drop_nil] at h
    simp [findFrom, h]
  | cons c t ih =>
    intro i h
    by_cases hp : listStartsWith pat (c :: t) = true
    · exact ⟨0, Nat.zero_le i, by simp [findFrom, hp]⟩
    · cases i with
      | zero =>
        simp only [occursAtB, List.drop_zero] at h
        exact absurd h hp
      | succ i0 =>
        rw [occursAtB_succ] at h
        rcases ih i0 h with ⟨k, hk, hfind⟩
        refine ⟨k + 1, by omega, ?_⟩
        simp [findFrom, hp, hfind]

theorem occursAtB_drop (s pat : List Char) (start k : Nat) :
    occursAtB (s.drop start) pat k = occursAtB s pat (start + k) := by
  simp [occursAtB, List.drop_drop, Nat.add_comm]

theorem findSub_sound (pat s : List Char) (start i : Nat)
    (h : findSub pat s start = some i) :
    start ≤ i ∧ occursAtB s pat i = true := by
  rcases Option.map_eq_some'.mp h with ⟨k, hk, hik⟩
  subst hik
  refine ⟨by omega, ?_⟩
  have := findFrom_sound pat (s.drop start) k hk
  rw [occursAtB_drop] at this
  rw [Nat.add_comm] at this
  exact this

theorem findSub_exact (pat s : List Char) (start k : Nat)
    (hocc : occursAtB s pat (start + k) = true)
    (hmin : ∀ j, start ≤ j → j < start + k → occursAtB s pat j = false) :
    findSub pat s start = some (start + k) := by
  have hocc' : occursAtB (s.drop start) pat k = true := by
    rw [occursAtB_drop]
    exact hocc
  rcases findFrom_complete pat (s.drop start) k hocc' with ⟨k0, hk0, hfind⟩
  have hk0e : k0 = k := by
    by_contra hne
    have hlt : k0 < k := by omega
    have := findFrom_sound pat (s.drop start) k0 hfind
    rw [occursAtB_drop] at this
    have hcontra := hmin (start + k0) (by omega) (by omega)
    rw [hcontra] at this
    exact absurd this (by simp)
  subst hk0e
  simp [findSub, hfind, Nat.add_comm]

theorem drop_eq_of_append {α : Type} (l1 l2 : List α) (n : Nat)
    (h : n = l1.length) : (l1 ++ l2).drop n = l2 := by
  subst h
  exact List.drop_left l1 l2

theorem take_eq_of_append {α : Type} (l1 l2 : List α) (n : Nat)
    (h : n = l1.length) : (l1 ++ l2).take n = l1 := by
  subst h
  exact List.take_left l1 l2

theorem occursAtB_bound {s pat : List Char} {i : Nat} (hp : pat ≠ [])
    (h : occursAtB s pat i = true) : i + pat.length ≤ s.length := by
  simp only [occursAtB] at h
  have hlen := lsw_length h
  simp only [List.length_drop] at hlen
  by_cases hi : i ≤ s.length
  · have hple : pat.length ≤ s.length - i := hlen
    have h1le : 1 ≤ pat.length := by
      cases pat with
      | nil => exact absurd rfl hp
      | cons a t => simp
    omega
  · exfalso
    have hnil : s.drop i = [] := List.drop_eq_nil_of_le (by omega)
    rw [hnil] at h
    rcases (lsw_iff pat []).mp h with ⟨r, hr⟩
    rcases List.append_eq_nil.mp hr.symm with ⟨hpe, _⟩
    exact hp hpe

/-- C6: for every document with a well-formed delimited metadata block —
written `p ++ "---" ++ m ++ "---" ++ b` where no `---` occurs before the
opening delimiter and none occurs between the closing of the opening
delimiter and the closing delimiter — `parse_frontmatter` returns exactly
the mapping obtained by parsing (with the abstract YAML semantics
`yamlLoad`) the text `m` strictly between the first `---` occurrence and
the next `---` occurrence after it, together with exactly the body text
`b` following that second delimiter. -/
theorem c6_wellformed_frontmatter {α : Type} (yamlLoad : List Char → Option α)
    (p m b : List Char)
    (h1 : ∀ k, k < p.length →
      occursAtB (p ++ dashes ++ m ++ dashes ++ b) dashes k = false)
    (h2 : ∀ k, p.length + 3 ≤ k → k < p.length + 3 + m.length →
      occursAtB (p ++ dashes ++ m ++ dashes ++ b) dashes k = false) :
    parse_frontmatter yamlLoad (p ++ dashes ++ m ++ dashes ++ b) =
      (yamlLoad m, b) := by
  have hd3 : dashes.length = 3 := rfl
  have e1 : p ++ dashes ++ m ++ dashes ++ b =
      p ++ (dashes ++ (m ++ (dashes ++ b))) := by
    simp [List.append_assoc]
  have e2 : p ++ dashes ++ m ++ dashes ++ b =
      (p ++ dashes) ++ (m ++ (dashes ++ b)) := by
    simp [List.append_assoc]
  have e3 : p ++ dashes ++ m ++ dashes ++ b =
      ((p ++ dashes) ++ m) ++ (dashes ++ b) := by
    simp [List.append_assoc]
  have e4 : p ++ dashes ++ m ++ dashes ++ b =
      (((p ++ dashes) ++ m) ++ dashes) ++ b := rfl
  have hdrop1 : (p ++ dashes ++ m ++ dashes ++ b).drop p.length =
      dashes ++ (m ++ (dashes ++ b)) := by
    rw [e1]
    exact drop_eq_of_append p _ p.length rfl
  have hocc1 : occursAtB (p ++ dashes ++ m ++ dashes ++ b) dashes
      p.length = true := by
    simp only [occursAtB, hdrop1]
    exact lsw_append dashes _
  have hfind1 : findSub dashes (p ++ dashes ++ m ++ dashes ++ b) 0 =
      some p.length := by
    have := findSub_exact dashes (p ++ dashes ++ m ++ dashes ++ b) 0 p.length
      (by simpa using hocc1)
      (by
        intro j hj0 hjp
        exact h1 j (by omega))
    simpa using this
  have hdrop2 : (p ++ dashes ++ m ++ dashes ++ b).drop (p.length + 3) =
      m ++ (dashes ++ b) := by
    rw [e2]
    exact drop_eq_of_append _ _ _ (by simp [hd3])
  have hdrop3 : (p ++ dashes ++ m ++ dashes ++ b).drop
      (p.length + 3 + m.length) = dashes ++ b := by
    rw [e3]
    exact drop_eq_of_append _ _ _ (by simp [hd3]; omega)
  have hocc2 : occursAtB (p ++ dashes ++ m ++ dashes ++ b) dashes
      (p.length + 3 + m.length) = true := by
    simp only [occursAtB, hdrop3]
    exact lsw_append dashes b
  have hfind2 : findSub dashes (p ++ dashes ++ m ++ dashes ++ b)
      (p.length + 3) = some (p.length + 3 + m.length) :=
    findSub_exact dashes _ (p.length + 3) m.length hocc2
      (fun j hj1 hj2 => h2 j hj1 hj2)
  have hsub : p.length + 3 + m.length - (p.length + 3) = m.length := by
    omega
  have hdrop4 : (p ++ dashes ++ m ++ dashes ++ b).drop
      (p.length + 3 + m.length + 3) = b := by
    rw [e4]
    exact drop_eq_of_append _ _ _ (by simp [hd3]; omega)
  simp only [parse_frontmatter, hfind1, hfind2, hsub, hdrop2, hdrop4]
  rw [take_eq_of_append m (dashes ++ b) m.length rfl]

/-- Witness for C6 at the concrete document `ab---ti---yz`. -/
theorem c6_witness :
    parse_frontmatter (fun s => some (String.mk s))
      ((("ab").toList) ++ dashes ++ (("ti").toList) ++ dashes ++
        (("yz").toList)) = (some ("ti"), ("yz").toList) :=
  c6_wellformed_frontmatter (fun s => some (String.mk s))
    (("ab").toList) (("ti").toList) (("yz").toList)
    (by decide) (by decide)

/-- C7: for every input text in which either frontmatter delimiter is
missing — formalised as: there are no two `---` occurrences at least three
characters apart, which in particular holds for any document containing no
`---` anywhere — `parse_frontmatter` returns no frontmatter and the entire
input unchanged as the body. -/
theorem c7_missing_delimiters {α : Type} (yamlLoad : List Char → Option α)
    (doc : List Char)
    (h : ∀ i, i ≤ doc.length → ∀ j, j ≤ doc.length → i + 3 ≤ j →
      ¬(occursAtB doc dashes i = true ∧ occursAtB doc dashes j = true)) :
    parse_frontmatter yamlLoad doc = (none, doc) := by
  cases hf1 : findSub dashes doc 0 with
  | none => simp [parse_frontmatter, hf1]
  | some st =>
    cases hf2 : findSub dashes doc (st + 3) with
    | none => simp [parse_frontmatter, hf1, hf2]
    | some en =>
      exfalso
      have hs1 := findSub_sound dashes doc 0 st hf1
      have hs2 := findSub_sound dashes doc (st + 3) en hf2
      have hd : dashes ≠ [] := by decide
      have hb1 := occursAtB_bound hd hs1.2
      have hb2 := occursAtB_bound hd hs2.2
      have hd3 : dashes.length = 3 := rfl
      rw [hd3] at hb1 hb2
      exact h st (by omega) en (by omega) (by omega) ⟨hs1.2, hs2.2⟩

/-- Witness for C7 at the concrete document `ab---cd`, which contains an
opening delimiter but no closing one. -/
theorem c7_witness :
    parse_frontmatter (fun s => some (String.mk s)) (("ab---cd").toList) =
      (none, ("ab---cd").toList) :=
  c7_missing_delimiters (fun s => some (String.mk s)) (("ab---cd").toList)
    (by decide)

theorem lsw_refl {α : Type} [DecidableEq α] (l : List α) :
    listStartsWith l l = true :=
  (lsw_iff l l).mpr ⟨[], by simp⟩

theorem dropLast_snoc {α : Type} (l : List α) (a : α) :
    (l ++ [a]).dropLast = l := by
  simp

theorem lsw_dropLast (root p : List String)
    (h : listStartsWith root p.dropLast = true) :
    listStartsWith root p = true := by
  rcases (lsw_iff root p.dropLast).mp h with ⟨r, hr⟩
  cases hp : p.reverse with
  | nil =>
    have hpe : p = [] := by
      have := congrArg List.reverse hp
      simpa using this
    subst hpe
    simp only [List.dropLast_nil] at hr
    rcases List.append_eq_nil.mp hr.symm with ⟨hre, _⟩
    subst hre
    exact lsw_refl []
  | cons x rx =>
    have hpf : p = rx.reverse ++ [x] := by
      have := congrArg List.reverse hp
      simpa using this
    rw [hpf, dropLast_snoc] at hr
    rw [hpf, hr, List.append_assoc]
    exact lsw_append root (r ++ [x])

/-- C10: the upward parent-walk of `gen_breadcrumbs_html` (the `while
file_dir != input_root` loop, modelled by `crumbLoop` with `Path.parent`
as `List.dropLast`) terminates — some amount of fuel suffices — exactly
for the start paths that lie at or below the input root (`input_root` is a
prefix of the path's components).  For any other start path the walk never
reaches `input_root`, whatever the fuel: the parent chain becomes
stationary without meeting it, so the Python loop does not terminate. -/
theorem c10_parent_walk_termination (p root : List String) :
    (∃ f, (crumbLoop f p root).isSome = true) ↔
      listStartsWith root p = true := by
  constructor
  · rintro ⟨f, hf⟩
    induction f generalizing p with
    | zero =>
      by_cases hp : p = root
      · rw [hp]
        exact lsw_refl _
      · simp [crumbLoop, hp] at hf
    | succ f0 ih =>
      by_cases hp : p = root
      · rw [hp]
        exact lsw_refl _
      · simp only [crumbLoop, if_neg hp, Option.isSome_map'] at hf
        exact lsw_dropLast root p (ih p.dropLast hf)
  · intro h
    rcases (lsw_iff root p).mp h with ⟨r, hr⟩
    subst hr
    clear h
    induction r using List.reverseRecOn with
    | nil => exact ⟨0, by simp [crumbLoop]⟩
    | append_singleton r0 x ih =>
      rcases ih with ⟨f, hf⟩
      by_cases hc : root ++ (r0 ++ [x]) = root
      · exact ⟨f + 1, by simp [crumbLoop, hc]⟩
      · refine ⟨f + 1, ?_⟩
        have hdl : (root ++ (r0 ++ [x])).dropLast = root ++ r0 := by
          rw [← List.append_assoc]
          exact dropLast_snoc (root ++ r0) x
        simp only [crumbLoop, if_neg hc, Option.isSome_map', hdl]
        exact hf

theorem crumbLoop_self (f : Nat) (root : List String) :
    crumbLoop f root root = some [] := by
  cases f with
  | zero => simp [crumbLoop]
  | succ f0 => simp [crumbLoop]

/-- C9: for any document whose adjusted directory (extension stripped, a
final `index` component replaced by its parent) resolves to the input root
itself — so that the collected crumb count is 1 — `gen_breadcrumbs_html`
returns the empty string, producing no breadcrumb markup. -/
theorem c9_root_crumb_empty (file input_root : List String)
    (h : adjustedDir file = input_root) :
    gen_breadcrumbs_html file input_root = some [] := by
  unfold gen_breadcrumbs_html
  rw [h]
  simp [crumbLoop_self]

/-- Witness for C9: a root-level `index.md` produces no breadcrumb markup. -/
theorem c9_witness :
    gen_breadcrumbs_html ([("root"), ("index.md")]) ([("root")]) = some [] :=
  c9_root_crumb_empty ([("root"), ("index.md")]) ([("root")]) (by decide)

set_option maxRecDepth 8000 in
/-- C1 counterexample: for the markdown document `root/a/b/page.md` under
input root `root`, `gen_breadcrumbs_html` does NOT produce three crumbs —
it produces four anchor elements, and the page itself appears as a crumb
labelled `page`, contradicting the claim that the trail never includes the
page and that the root crumb links via `../../`. -/
theorem c1_counterexample :
    gen_breadcrumbs_html ([("root"), ("a"), ("b"), ("page.md")])
        ([("root")]) =
      some (("<nav class=\"breadcrumbs\"><a href=\"../../..\">root</a> / <a href=\"../..\">a</a> / <a href=\"..\">b</a> / <a href=\"\">page</a></nav>").toList) ∧
    countOccur
      (("<nav class=\"breadcrumbs\"><a href=\"../../..\">root</a> / <a href=\"../..\">a</a> / <a href=\"..\">b</a> / <a href=\"\">page</a></nav>").toList)
      (("</a>").toList) = 4 ∧
    (findFrom ((">page</a>").toList)
      (("<nav class=\"breadcrumbs\"><a href=\"../../..\">root</a> / <a href=\"../..\">a</a> / <a href=\"..\">b</a> / <a href=\"\">page</a></nav>").toList)).isSome = true := by
  refine ⟨rfl, rfl, rfl⟩

set_option maxRecDepth 8000 in
/-- C1 as amended: for a markdown document at relative path `a/b/page.md`
below the input root, `gen_breadcrumbs_html` produces four crumbs labelled
`root`, `a`, `b`, `page` (the page itself is the final, current crumb),
rendered root-first with the root crumb linked via `../../..`, `a` via
`../..`, `b` via `..`, and `page` carrying an empty link, joined by the
literal ` / ` separator inside a `<nav class="breadcrumbs">` container. -/
theorem c1_amended :
    gen_breadcrumbs_html ([("root"), ("a"), ("b"), ("page.md")])
        ([("root")]) =
      some (("<nav class=\"breadcrumbs\"><a href=\"../../..\">root</a> / <a href=\"../..\">a</a> / <a href=\"..\">b</a> / <a href=\"\">page</a></nav>").toList) := by
  rfl

set_option maxRecDepth 8000 in
/-- C2 evaluation at the failing input: for template HTML with two
relative references, `href="a.css"` and `src="b.png"`, and a markdown file
`in/page.md`, `patch_referenced_files` does NOT rewrite both values in
place.  The match positions come from the original string while the string
is re-spliced each iteration, so the second replacement lands at stale
offsets: the result is the corrupted
`<a href="_templates/a.css"_templates/b.png src="b.png">`, in which the
rewritten second value `src="_templates/b.png"` never occurs and the
original `src="b.png"` survives unmodified. -/
theorem c2_stale_offsets_bug :
    patch_referenced_files (("<a href=\"a.css\"><img src=\"b.png\">").toList)
        ([("in"), ("_templates"), ("t.html")]) ([("in"), ("page.md")]) =
      (("<a href=\"_templates/a.css\"_templates/b.png src=\"b.png\">").toList) ∧
    (findFrom (("src=\"_templates/b.png\"").toList)
      (("<a href=\"_templates/a.css\"_templates/b.png src=\"b.png\">").toList)).isSome
        = false ∧
    (findFrom (("src=\"b.png\"").toList)
      (("<a href=\"_templates/a.css\"_templates/b.png src=\"b.png\">").toList)).isSome
        = true := by
  refine ⟨rfl, rfl, rfl⟩

/-- C3 evaluation at the failing input: a markdown document `# Hi` with no
frontmatter block at all, with the default template present on disk.
`parse_frontmatter` degrades gracefully to no frontmatter, but
`process_markdown` then evaluates `frontmatter.get(...)` on `None` and
aborts with an `AttributeError` instead of using the default template:
the render fails and no output is produced. -/
theorem c3_missing_frontmatter_crash :
    process_markdown (fun _ => (none : Option Fm)) (fun x => x)
      ([ (([("in"), ("doc.md")]), ("# Hi").toList),
         (([("in"), ("_templates"), ("default.html")]), ("x").toList) ])
      ([("in"), ("doc.md")]) ([("in")]) ([("out")]) =
      some (Except.error PyErr.attributeError) := by
  rfl

/-- C4 counterexample: for the markdown file `x/y/page.md` under the
two-component input root `x/y`, the code prefixes
`len(markdown_file.parts[:-2]) = 1` parent-traversal segment, while the
claimed value — the document's path depth below the input root minus one —
is `0`.  The count is therefore NOT independent of how many components the
input-root path consists of. -/
theorem c4_counterexample :
    listStartsWith ([("x"), ("y")]) ([("x"), ("y"), ("page.md")]) = true ∧
    markdownToRootCount ([("x"), ("y"), ("page.md")]) = 1 ∧
    specTraversalCount ([("x"), ("y"), ("page.md")]) ([("x"), ("y")]) = 0 := by
  refine ⟨rfl, rfl, rfl⟩

/-- C4 as amended: the number of `../` segments equals the markdown file's
total component count minus two; whenever the input root consists of a
single path component (and the file lies below it), this equals the
document's path depth below the input root minus one — the equality is not
independent of the input root's component count. -/
theorem c4_amended (file input_root : List String)
    (hroot : input_root.length = 1)
    (hbelow : listStartsWith input_root file = true) :
    markdownToRootCount file = specTraversalCount file input_root := by
  rcases (lsw_iff input_root file).mp hbelow with ⟨r, hr⟩
  subst hr
  simp only [markdownToRootCount, specTraversalCount, List.length_dropLast,
    List.length_drop, List.length_append, hroot]

/-- Witness for C4 as amended: `root/a/b/page.md` under the one-component
root `root` gets two `../` segments, the depth below the root minus one. -/
theorem c4_amended_witness :
    markdownToRootCount ([("root"), ("a"), ("b"), ("page.md")]) =
      specTraversalCount ([("root"), ("a"), ("b"), ("page.md")])
        ([("root")]) :=
  c4_amended ([("root"), ("a"), ("b"), ("page.md")]) ([("root")]) rfl rfl

/-- C5 counterexample: a markdown file inside the reserved `_templates`
directory IS dispatched to the page renderer by the markdown pass of
`process_all` — the exclusion the claim asserts exists only in the
direct-copy pass. -/
theorem c5_counterexample :
    process_all_markdown
        ([ [("in"), ("_templates"), ("note.md")], [("in"), ("a.md")] ]) =
      [ [("in"), ("_templates"), ("note.md")], [("in"), ("a.md")] ] ∧
    ([("in"), ("_templates"), ("note.md")] ∈
      process_all_markdown
        ([ [("in"), ("_templates"), ("note.md")], [("in"), ("a.md")] ])) ∧
    process_all_copied
        ([ [("in"), ("_templates"), ("style.css")], [("in"), ("s.css")] ]) =
      [ [("in"), ("s.css")] ] := by
  refine ⟨rfl, by decide, rfl⟩

/-- C5 as amended: the markdown pass of the site walker dispatches the
page renderer exactly once per occurrence of each path with suffix `.md`
in the enumeration of files under the input root, with NO exclusion for
the reserved `_templates` directory — its markdown files are dispatched
too. -/
theorem count_filter_boolpred {α : Type} [BEq α] [LawfulBEq α] (p : α → Bool)
    (l : List α) (a : α) :
    (l.filter p).count a = if p a = true then l.count a else 0 := by
  induction l with
  | nil => simp
  | cons x xs ih =>
    simp only [List.filter_cons]
    by_cases hx : p x = true
    · rw [if_pos hx, List.count_cons, List.count_cons, ih]
      by_cases hax : a = x
      · subst hax
        simp [hx]
      · have hbeq : (x == a) = false :=
          beq_eq_false_iff_ne.mpr (fun hh => hax hh.symm)
        simp [hbeq]
    · rw [if_neg hx, ih, List.count_cons]
      by_cases hax : a = x
      · subst hax
        simp [hx]
      · have hbeq : (x == a) = false :=
          beq_eq_false_iff_ne.mpr (fun hh => hax hh.symm)
        simp [hbeq]

theorem c5_amended (files : List (List String)) (f : List String) :
    (process_all_markdown files).count f =
      if pathSuffix f = (".md") then files.count f else 0 := by
  have h := count_filter_boolpred
    (fun g => ([(".md")] : List String).contains (pathSuffix g)) files f
  simp only [process_all_markdown, walk_dir]
  refine Eq.trans h ?_
  by_cases hs : pathSuffix f = (".md")
  · rw [if_pos (by simpa using hs), if_pos hs]
  · rw [if_neg (by simpa using hs), if_neg hs]

/-- C8: whenever a document's resolved template file does not exist in the
filesystem, `process_markdown` aborts with the assertion diagnostic naming
that template path, before performing any substitution or write: the
result carries no output file, so the output tree is left unchanged by the
failed render. -/
theorem c8_missing_template_aborts (yamlLoad : List Char → Option Fm)
    (mdRender : List Char → List Char) (fs : FS)
    (file input_root output_root : List String) (raw : List Char)
    (rel : List String) (fm : Fm) (body : List Char)
    (h1 : fsRead fs file = some raw)
    (h2 : relativeTo file input_root = some rel)
    (h3 : parse_frontmatter yamlLoad raw = (some fm, body))
    (h4 : fsRead fs (templatePathOf input_root fm) = none) :
    process_markdown yamlLoad mdRender fs file input_root output_root =
      some (Except.error
        (PyErr.assertionError (templatePathOf input_root fm))) := by
  simp only [process_markdown, h1, h2, h3, h4]

/-- Witness for C8: a document whose frontmatter selects template `t`
while `in/_templates/t.html` is not on disk; the render aborts with the
assertion error naming that path and produces no output. -/
theorem c8_witness :
    process_markdown (fun _ => some [(("template"), ("t"))]) (fun x => x)
      ([ (([("in"), ("page.md")]), ("---a---b").toList) ])
      ([("in"), ("page.md")]) ([("in")]) ([("out")]) =
      some (Except.error
        (PyErr.assertionError ([("in"), ("_templates"), ("t.html")]))) :=
  c8_missing_template_aborts (fun _ => some [(("template"), ("t"))])
    (fun x => x) ([ (([("in"), ("page.md")]), ("---a---b").toList) ])
    ([("in"), ("page.md")]) ([("in")]) ([("out")]) (("---a---b").toList)
    ([("page.md")]) ([(("template"), ("t"))]) (("b").toList)
    rfl rfl rfl rfl
